import Mathlib

/-!
Shallow embedding of `src/read_humidity.py` (mjagkow/home-plants).

The program is a single pipeline (`main`): it opens a serial port, synchronises
on a fixed 6-byte marker (`port.read_until`), discards a 22-byte header
(`port.read(22)`), then loops forever: once per hour bucket it opens a zip
archive containing one `metrics.csv` member, writes the header row, and while
`datetime.utcnow() < checkpoint` reads 28-byte records (`unpack("HHHHHHHHfff", …)`),
builds a `SoilHumidity` model and appends it as a CSV row.  `KeyboardInterrupt`
is caught at the top level and suppressed; `with` blocks close the open archive
on every exit path.

Modelling choices, stated once here:
  * time is `Nat`, microseconds since the UTC epoch; `datetime.utcnow()` calls
    are drawn from a `clock : Nat → Nat` indexed by call order;
  * bytes are `Nat` (values < 256 in any real stream); the serial stream is a
    finite `List Nat`, and exhaustion of the list models the port
    closing/erroring mid-read (a fatal I/O error in the program);
  * the 3 `float32` fields are represented by their little-endian 32-bit
    patterns — no claim interprets float arithmetic, only which wire bytes land
    in which field;
  * `KeyboardInterrupt` is modelled as the index of the blocking
    `port.read(28)` call during which the signal arrives (that read is where
    the process spends essentially all of its time blocked);
  * the `try/except json.JSONDecodeError` around the record construction is
    translated away: its body (`SoilHumidity(**…)`, `writer.writerow`) contains
    no `json.loads` (that line is commented out in the source) and so can never
    raise `json.JSONDecodeError`; the embedded step is the total function the
    body denotes.
-/

namespace ReadHumidity

/-- One hour in microseconds (`timedelta(hours=1)`). -/
def hourUs : Nat := 3600 * 1000000

/-- `datetime.utcnow().replace(minute=0, second=0, microsecond=0)` (line 86):
truncation of a microsecond timestamp down to the start of its hour. -/
def truncHour (t : Nat) : Nat := t - t % hourUs

/-- The sync marker `b'\x9a\x16\x52\x76\xa8\x1b'` of `port.read_until` (line 83). -/
def syncMarker : List Nat := [0x9a, 0x16, 0x52, 0x76, 0xa8, 0x1b]

/-- `port.read_until(marker)`: consume bytes up to and including the first
occurrence of `marker`; `none` models the port closing before a match. -/
def dropPast (marker : List Nat) : List Nat → Option (List Nat)
  | [] => if marker.isPrefixOf ([] : List Nat) then some (([] : List Nat).drop marker.length)
          else none
  | a :: t =>
    if marker.isPrefixOf (a :: t) then some ((a :: t).drop marker.length)
    else dropPast marker t

/-- `port.read(n)`: exactly `n` bytes or a fatal error (`none`). -/
def readN (n : Nat) (s : List Nat) : Option (List Nat × List Nat) :=
  if n ≤ s.length then some (s.take n, s.drop n) else none

/-- Lines 83–84: `port.read_until(b'\x9a\x16\x52\x76\xa8\x1b'); port.read(22)`.
Returns the stream as the decoder first sees it. -/
def syncStream (s : List Nat) : Option (List Nat) :=
  match dropPast syncMarker s with
  | none => none
  | some r =>
    match readN 22 r with
    | none => none
    | some pr => some pr.2

/-- Line 87: `columns = list(SoilHumidity.schema()["properties"].keys())` —
pydantic's schema lists properties in declaration order of the model fields. -/
def columns : List String :=
  ["timestamp", "potId", "airLevel", "waterLevel", "soilHumidity",
   "soilHumidityPercent", "airTemperature", "airHumidity", "heatIndex"]

/-- The `SoilHumidity` pydantic model (lines 22–31).  `timestamp` is stamped at
construction (`default_factory=datetime.utcnow`); the float fields hold the
32-bit little-endian patterns of the wire floats. -/
structure SoilHumidity where
  timestamp : Nat
  potId : Option Nat
  airLevel : Option Nat
  waterLevel : Option Nat
  soilHumidity : Option Nat
  soilHumidityPercent : Option Nat
  airTemperature : Option Nat
  airHumidity : Option Nat
  heatIndex : Option Nat
deriving DecidableEq, Repr

/-- The `i`-th (0-based) of the 8 unsigned 16-bit integers of
`unpack("HHHHHHHHfff", b)`: little-endian at byte offset `2*i`. -/
def wireU16 (b : List Nat) (i : Nat) : Nat :=
  b.getD (2 * i) 0 + 256 * b.getD (2 * i + 1) 0

/-- The 32-bit pattern of the `j`-th (0-based) of the 3 floats of
`unpack("HHHHHHHHfff", b)`: little-endian at byte offset `16 + 4*j`. -/
def wireF32 (b : List Nat) (j : Nat) : Nat :=
  b.getD (16 + 4 * j) 0 + 256 * b.getD (16 + 4 * j + 1) 0 +
    65536 * b.getD (16 + 4 * j + 2) 0 + 16777216 * b.getD (16 + 4 * j + 3) 0

/-- Line 107: `SoilHumidity(**{k: v for k, v in zip(columns[1:], data[3:])})`
where `data = unpack("HHHHHHHHfff", port.read(28))` (line 104).  Dropping the
first 3 of the 11 wire values pairs wire integers 3–7 with the 5 integer
fields and the 3 wire floats with the 3 float fields, in declared order.
`now` is the `datetime.utcnow()` drawn by the `timestamp` default factory. -/
def decodeRecord (now : Nat) (b : List Nat) : SoilHumidity :=
  { timestamp := now
    potId := some (wireU16 b 3)
    airLevel := some (wireU16 b 4)
    waterLevel := some (wireU16 b 5)
    soilHumidity := some (wireU16 b 6)
    soilHumidityPercent := some (wireU16 b 7)
    airTemperature := some (wireF32 b 0)
    airHumidity := some (wireF32 b 1)
    heatIndex := some (wireF32 b 2) }

/-- How one hour bucket (the inner `while` of lines 102–113) ends. -/
inductive BucketOutcome
  | rotated
  | interrupted
  | shortRead
deriving DecidableEq, Repr

/-- Result of one hour bucket: the rows appended to `metrics.csv`, how the
loop ended, the clock-call and read-call counters afterwards, and the
unconsumed remainder of the byte stream. -/
structure BucketResult where
  rows : List SoilHumidity
  outcome : BucketOutcome
  clockIdx : Nat
  readIdx : Nat
  stream : List Nat
deriving DecidableEq, Repr

/-- The inner loop `while datetime.utcnow() < checkpoint:` (lines 102–113).
`ci` counts `datetime.utcnow()` calls so far, `ri` counts `port.read(28)`
calls so far; `intr = some ri` means `KeyboardInterrupt` arrives during the
`ri`-th blocking 28-byte read.  Each iteration: one clock call for the check;
if due, exit for rotation; otherwise read 28 bytes (fatal if the stream is
shorter), one clock call for the record's `timestamp`, append the decoded row. -/
def runBucket (clock : Nat → Nat) (intr : Option Nat) (cp ci ri : Nat)
    (s : List Nat) : BucketResult :=
  if clock ci < cp then
    if intr = some ri then
      ⟨[], .interrupted, ci + 1, ri, s⟩
    else if h : 28 ≤ s.length then
      let rest := runBucket clock intr cp (ci + 2) (ri + 1) (s.drop 28)
      ⟨decodeRecord (clock (ci + 1)) (s.take 28) :: rest.rows,
        rest.outcome, rest.clockIdx, rest.readIdx, rest.stream⟩
    else
      ⟨[], .shortRead, ci + 1, ri + 1, s⟩
  else
    ⟨[], .rotated, ci + 1, ri, s⟩
termination_by s.length
decreasing_by simp only [List.length_drop]; omega

/-- Two-digit zero-padded decimal, as `%H`/`%M`/`%S`/`%m`/`%d` render. -/
def pad2 (n : Nat) : String :=
  if n < 10 then "0" ++ toString n else toString n

/-- Four-digit zero-padded decimal, as `%Y` renders. -/
def pad4 (n : Nat) : String :=
  if n < 10 then "000" ++ toString n
  else if n < 100 then "00" ++ toString n
  else if n < 1000 then "0" ++ toString n
  else toString n

/-- Proleptic-Gregorian `(year, month, day)` of a day count since 1970-01-01,
the conversion `datetime` performs when rendering `%Y-%m-%d`. -/
def civilFromDays (z0 : Nat) : Nat × Nat × Nat :=
  let z := z0 + 719468
  let era := z / 146097
  let doe := z % 146097
  let yoe := (doe - doe / 1460 + doe / 36524 - doe / 146096) / 365
  let y := yoe + era * 400
  let doy := doe - (365 * yoe + yoe / 4 - yoe / 100)
  let mp := (5 * doy + 2) / 153
  let d := doy - (153 * mp + 2) / 5 + 1
  let m := if mp < 10 then mp + 3 else mp - 9
  (if m ≤ 2 then y + 1 else y, m, d)

/-- Line 89: the archive path
`f".garden/metrics/pots/humidity/{datetime.utcnow():%Y-%m-%d/%H-%M-%S}.zip"`
for a capture time `t` (µs), relative to `Path.home()`. -/
def pathFor (t : Nat) : String :=
  let days := t / 86400000000
  let secOfDay := t % 86400000000 / 1000000
  let c := civilFromDays days
  ".garden/metrics/pots/humidity/" ++ pad4 c.1 ++ "-" ++ pad2 c.2.1 ++ "-" ++
    pad2 c.2.2 ++ "/" ++ pad2 (secOfDay / 3600) ++ "-" ++
    pad2 (secOfDay % 3600 / 60) ++ "-" ++ pad2 (secOfDay % 60) ++ ".zip"

/-- How the whole pipeline run ends. -/
inductive Exit
  | graceful
  | shortRead
  | syncFail
  | outOfFuel
deriving DecidableEq, Repr

/-- One rotation bucket's output unit, as finally written to disk: the zip at
`path` holding `metrics.csv` with the `header` row then one row per element of
`rows`.  `deadline` is the checkpoint that governed the bucket (ghost data,
recorded for specification purposes); `finalized` records that the zip
container was closed (the `with` blocks of lines 96–98 close it on every exit
path, normal or unwinding). -/
structure Archive where
  path : String
  header : List String
  rows : List SoilHumidity
  deadline : Nat
  finalized : Bool
deriving DecidableEq, Repr

/-- Outcome of a pipeline run: every archive ever opened, in open order, and
how the process ended. -/
structure RunResult where
  archives : List Archive
  exit : Exit
deriving DecidableEq, Repr

/-- The outer `while True:` (lines 88–113), fuelled (the real loop is
unbounded).  One iteration: draw `utcnow` for the path (line 89), open the
archive and write the header row (lines 96–100), advance the checkpoint by one
hour (line 101), run the inner bucket loop, then either rotate into the next
iteration, or stop: `KeyboardInterrupt` is caught at line 114 (graceful),
a short read is a fatal `struct.error`/serial exception (not caught); in both
cases the `with` blocks finalize the open zip. -/
def runFrom (clock : Nat → Nat) (intr : Option Nat) :
    Nat → Nat → Nat → Nat → List Nat → RunResult
  | 0, _, _, _, _ => ⟨[], .outOfFuel⟩
  | fuel + 1, cp, ci, ri, s =>
    let cp' := cp + hourUs
    let res := runBucket clock intr cp' (ci + 1) ri s
    let ar : Archive := ⟨pathFor (clock ci), columns, res.rows, cp', true⟩
    match res.outcome with
    | .rotated =>
      let rest := runFrom clock intr fuel cp' res.clockIdx res.readIdx res.stream
      ⟨ar :: rest.archives, rest.exit⟩
    | .interrupted => ⟨[ar], .graceful⟩
    | .shortRead => ⟨[ar], .shortRead⟩

/-- The pipeline body of `main` (lines 82–115): synchronise once
(lines 83–84), set the initial checkpoint to `utcnow` truncated to the hour
(line 86, clock call 0), then run the outer loop. -/
def run (clock : Nat → Nat) (intr : Option Nat) (fuel : Nat) (s : List Nat) :
    RunResult :=
  match syncStream s with
  | none => ⟨[], .syncFail⟩
  | some s1 => runFrom clock intr fuel (truncHour (clock 0)) 1 0 s1

/-- `zipfile.ZipFile(path, "w")` against a filesystem modelled as a map from
path to content: mode `"w"` creates the file, truncating and replacing any
existing file at that path. -/
def writeFile (fs : String → Option Archive) (p : String) (c : Archive) :
    String → Option Archive :=
  fun q => if q = p then some c else fs q

/-! ### Unfolding lemmas for the inner bucket loop -/

theorem runBucket_rotate (clock : Nat → Nat) (intr : Option Nat) (cp ci ri : Nat)
    (s : List Nat) (h : cp ≤ clock ci) :
    runBucket clock intr cp ci ri s = ⟨[], .rotated, ci + 1, ri, s⟩ := by
  rw [runBucket]
  simp [Nat.not_lt.mpr h]

theorem runBucket_intr (clock : Nat → Nat) (intr : Option Nat) (cp ci ri : Nat)
    (s : List Nat) (h : clock ci < cp) (hi : intr = some ri) :
    runBucket clock intr cp ci ri s = ⟨[], .interrupted, ci + 1, ri, s⟩ := by
  rw [runBucket]
  simp [h, hi]

theorem runBucket_step (clock : Nat → Nat) (intr : Option Nat) (cp ci ri : Nat)
    (s : List Nat) (h : clock ci < cp) (hi : intr ≠ some ri) (hl : 28 ≤ s.length) :
    runBucket clock intr cp ci ri s =
      { rows := decodeRecord (clock (ci + 1)) (s.take 28) ::
          (runBucket clock intr cp (ci + 2) (ri + 1) (s.drop 28)).rows,
        outcome := (runBucket clock intr cp (ci + 2) (ri + 1) (s.drop 28)).outcome,
        clockIdx := (runBucket clock intr cp (ci + 2) (ri + 1) (s.drop 28)).clockIdx,
        readIdx := (runBucket clock intr cp (ci + 2) (ri + 1) (s.drop 28)).readIdx,
        stream := (runBucket clock intr cp (ci + 2) (ri + 1) (s.drop 28)).stream } := by
  rw [runBucket]
  simp [h, hi, hl]

theorem runBucket_short (clock : Nat → Nat) (intr : Option Nat) (cp ci ri : Nat)
    (s : List Nat) (h : clock ci < cp) (hi : intr ≠ some ri) (hl : s.length < 28) :
    runBucket clock intr cp ci ri s = ⟨[], .shortRead, ci + 1, ri + 1, s⟩ := by
  rw [runBucket]
  simp [h, hi, Nat.not_le.mpr hl]

/-- Decoding looks only at byte offsets 6–27: the kept integer fields sit at
offsets 6–15 and the floats at 16–27, so bytes 0–5 (the 3 discarded wire
integers) cannot influence the decoded reading. -/
theorem decodeRecord_congr (now : Nat) (b b2 : List Nat)
    (h2 : ∀ i, 6 ≤ i → b.getD i 0 = b2.getD i 0) :
    decodeRecord now b = decodeRecord now b2 := by
  simp only [decodeRecord, wireU16, wireF32]
  rw [h2 (2 * 3) (by norm_num), h2 (2 * 3 + 1) (by norm_num),
    h2 (2 * 4) (by norm_num), h2 (2 * 4 + 1) (by norm_num),
    h2 (2 * 5) (by norm_num), h2 (2 * 5 + 1) (by norm_num),
    h2 (2 * 6) (by norm_num), h2 (2 * 6 + 1) (by norm_num),
    h2 (2 * 7) (by norm_num), h2 (2 * 7 + 1) (by norm_num),
    h2 (16 + 4 * 0) (by norm_num), h2 (16 + 4 * 0 + 1) (by norm_num),
    h2 (16 + 4 * 0 + 2) (by norm_num), h2 (16 + 4 * 0 + 3) (by norm_num),
    h2 (16 + 4 * 1) (by norm_num), h2 (16 + 4 * 1 + 1) (by norm_num),
    h2 (16 + 4 * 1 + 2) (by norm_num), h2 (16 + 4 * 1 + 3) (by norm_num),
    h2 (16 + 4 * 2) (by norm_num), h2 (16 + 4 * 2 + 1) (by norm_num),
    h2 (16 + 4 * 2 + 2) (by norm_num), h2 (16 + 4 * 2 + 3) (by norm_num)]

/-- Claim C1: for every 28-byte wire record the decoder reads exactly those 28
bytes (the next reading starts right after them) and decodes them as 8
little-endian unsigned 16-bit integers followed by 3 32-bit floats; wire
integers 3–7 map in order to `potId, airLevel, waterLevel, soilHumidity,
soilHumidityPercent`, the 3 floats map in order to `airTemperature,
airHumidity, heatIndex`, and the discarded first 3 integers (bytes 0–5) never
influence the output reading. -/
theorem record_decode_layout (now : Nat) (b : List Nat) (hb : b.length = 28) :
    (∀ (clock : Nat → Nat) (intr : Option Nat) (cp ci ri : Nat) (extra : List Nat),
        clock ci < cp → intr ≠ some ri →
        runBucket clock intr cp ci ri (b ++ extra) =
          { rows := decodeRecord (clock (ci + 1)) b ::
              (runBucket clock intr cp (ci + 2) (ri + 1) extra).rows,
            outcome := (runBucket clock intr cp (ci + 2) (ri + 1) extra).outcome,
            clockIdx := (runBucket clock intr cp (ci + 2) (ri + 1) extra).clockIdx,
            readIdx := (runBucket clock intr cp (ci + 2) (ri + 1) extra).readIdx,
            stream := (runBucket clock intr cp (ci + 2) (ri + 1) extra).stream }) ∧
    (decodeRecord now b).potId = some (wireU16 b 3) ∧
    (decodeRecord now b).airLevel = some (wireU16 b 4) ∧
    (decodeRecord now b).waterLevel = some (wireU16 b 5) ∧
    (decodeRecord now b).soilHumidity = some (wireU16 b 6) ∧
    (decodeRecord now b).soilHumidityPercent = some (wireU16 b 7) ∧
    (decodeRecord now b).airTemperature = some (wireF32 b 0) ∧
    (decodeRecord now b).airHumidity = some (wireF32 b 1) ∧
    (decodeRecord now b).heatIndex = some (wireF32 b 2) ∧
    (∀ b2 : List Nat, (∀ i, 6 ≤ i → b.getD i 0 = b2.getD i 0) →
        decodeRecord now b = decodeRecord now b2) := by
  refine ⟨?_, rfl, rfl, rfl, rfl, rfl, rfl, rfl, rfl, fun b2 h2 => decodeRecord_congr now b b2 h2⟩
  intro clock intr cp ci ri extra h hi
  have ht : (b ++ extra).take 28 = b := by
    rw [← hb]
    exact List.take_left b extra
  have hd : (b ++ extra).drop 28 = extra := by
    rw [← hb]
    exact List.drop_left b extra
  have hl : 28 ≤ (b ++ extra).length := by
    simp [hb]
  rw [runBucket_step clock intr cp ci ri (b ++ extra) h hi hl, ht, hd]

/-- Witness for C1 at a concrete record: the 28 bytes `0,…,27`. -/
theorem record_decode_layout_witness :
    (List.range 28).length = 28 ∧
      (decodeRecord 5 (List.range 28)).potId = some (wireU16 (List.range 28) 3) ∧
      (decodeRecord 5 (List.range 28)).heatIndex = some (wireF32 (List.range 28) 2) :=
  ⟨by decide, (record_decode_layout 5 (List.range 28) (by decide)).2.1,
    (record_decode_layout 5 (List.range 28) (by decide)).2.2.2.2.2.2.2.2.1⟩

/-! ### Frame synchronisation -/

theorem isPrefixOf_append_self (l r : List Nat) : l.isPrefixOf (l ++ r) = true := by
  induction l with
  | nil => simp [List.isPrefixOf]
  | cons a t ih => simp [List.isPrefixOf, ih]

/-- `read_until` locks onto the first occurrence of the marker: if the marker
matches at position `k` and at no earlier position, the stream is consumed
through position `k + marker.length`. -/
theorem dropPast_of_first (marker : List Nat) :
    ∀ (s : List Nat) (k : Nat),
      marker.isPrefixOf (s.drop k) = true →
      (∀ i, i < k → marker.isPrefixOf (s.drop i) = false) →
      dropPast marker s = some ((s.drop k).drop marker.length) := by
  intro s
  induction s with
  | nil =>
    intro k hk hmin
    cases k with
    | zero =>
      simp only [List.drop_nil] at hk ⊢
      simp [dropPast, hk]
    | succ j =>
      have h0 := hmin 0 (Nat.succ_pos j)
      simp only [List.drop_nil] at hk h0
      rw [hk] at h0
      exact absurd h0 (by simp)
  | cons a t ih =>
    intro k hk hmin
    cases k with
    | zero =>
      simp only [List.drop_zero] at hk ⊢
      simp [dropPast, hk]
    | succ j =>
      have h0 : marker.isPrefixOf (a :: t) = false := by
        simpa using hmin 0 (Nat.succ_pos j)
      have hk' : marker.isPrefixOf (t.drop j) = true := by
        simpa [List.drop_succ_cons] using hk
      have hmin' : ∀ i, i < j → marker.isPrefixOf (t.drop i) = false := by
        intro i hi
        simpa [List.drop_succ_cons] using hmin (i + 1) (by omega)
      simpa [dropPast, h0, List.drop_succ_cons] using ih j hk' hmin'

/-- Claim C3 (amended): for a stream made of noise, the 6-byte sync marker, a
22-byte header and then record data, *provided the marker does not also match
at any position inside the noise-prefixed stream before the intended one*,
the synchroniser consumes exactly noise + marker + header, so the decoder's
first byte is the one immediately after the header. -/
theorem sync_consumes (noise header body : List Nat) (hh : header.length = 22)
    (hno : ∀ i, i < noise.length →
      syncMarker.isPrefixOf ((noise ++ (syncMarker ++ (header ++ body))).drop i) = false) :
    syncStream (noise ++ (syncMarker ++ (header ++ body))) = some body := by
  have hdropn : (noise ++ (syncMarker ++ (header ++ body))).drop noise.length =
      syncMarker ++ (header ++ body) := List.drop_left _ _
  have hk : syncMarker.isPrefixOf
      ((noise ++ (syncMarker ++ (header ++ body))).drop noise.length) = true := by
    rw [hdropn]
    exact isPrefixOf_append_self _ _
  have hdp := dropPast_of_first syncMarker _ noise.length hk hno
  rw [hdropn, List.drop_left] at hdp
  have ht : (header ++ body).take 22 = header := by
    rw [← hh]
    exact List.take_left header body
  have hd : (header ++ body).drop 22 = body := by
    rw [← hh]
    exact List.drop_left header body
  have hl : 22 ≤ (header ++ body).length := by
    simp [hh]
  simp only [syncStream, hdp, readN, if_pos hl, ht, hd]

/-- Counterexample to C3 as stated: take the "arbitrary noise" to be a copy of
the sync marker itself.  The synchroniser locks onto the *first* occurrence,
treats the real marker plus 16 header bytes as the 22-byte header, and hands
the decoder the last 6 header bytes — not the byte after the header.  Stream:
noise = marker, header = 16 zeros then `1,…,6`, record data = `[99]`. -/
theorem sync_consumes_counterexample :
    syncStream (syncMarker ++ (syncMarker ++
        (([0, 0, 0, 0, 0, 0, 0, 0, 0, 0, 0, 0, 0, 0, 0, 0, 1, 2, 3, 4, 5, 6] : List Nat) ++
          [99]))) = some [1, 2, 3, 4, 5, 6, 99] ∧
    syncStream (syncMarker ++ (syncMarker ++
        (([0, 0, 0, 0, 0, 0, 0, 0, 0, 0, 0, 0, 0, 0, 0, 0, 1, 2, 3, 4, 5, 6] : List Nat) ++
          [99]))) ≠ some [99] := by
  constructor
  · decide
  · decide

/-- Witness for the amended C3 at a concrete stream: noise `[1,2,3]`, a 22-byte
header of zeros, record data `[7,8]`. -/
theorem sync_consumes_witness :
    ((List.replicate 22 0).length = 22 ∧
      ∀ i, i < (([1, 2, 3] : List Nat)).length →
        syncMarker.isPrefixOf ((([1, 2, 3] : List Nat) ++
          (syncMarker ++ (List.replicate 22 0 ++ [7, 8]))).drop i) = false) ∧
    syncStream (([1, 2, 3] : List Nat) ++
      (syncMarker ++ (List.replicate 22 0 ++ [7, 8]))) = some [7, 8] :=
  ⟨⟨by decide, by decide⟩,
    sync_consumes [1, 2, 3] (List.replicate 22 0) [7, 8] (by decide) (by decide)⟩

/-! ### The outer rotation loop -/

/-- Every archive the outer loop ever records: its header row is the fixed
column list, its governing checkpoint is the start checkpoint advanced once
per bucket so far plus the in-bucket advance, and its container was
finalized. -/
theorem runFrom_get (clock : Nat → Nat) (intr : Option Nat) :
    ∀ (fuel cp ci ri : Nat) (s : List Nat) (n : Nat) (a : Archive),
      (runFrom clock intr fuel cp ci ri s).archives.get? n = some a →
      a.header = columns ∧ a.deadline = cp + (n + 1) * hourUs ∧ a.finalized = true := by
  intro fuel
  induction fuel with
  | zero =>
    intro cp ci ri s n a h
    simp [runFrom] at h
  | succ fuel ih =>
    intro cp ci ri s n a h
    simp only [runFrom] at h
    cases ho : (runBucket clock intr (cp + hourUs) (ci + 1) ri s).outcome with
    | rotated =>
      rw [ho] at h
      cases n with
      | zero =>
        simp at h
        rw [← h]
        exact ⟨rfl, by ring, rfl⟩
      | succ m =>
        simp only [List.get?_cons_succ] at h
        obtain ⟨h1, h2, h3⟩ := ih _ _ _ _ m a h
        refine ⟨h1, ?_, h3⟩
        rw [h2]
        ring
    | interrupted =>
      rw [ho] at h
      cases n with
      | zero =>
        simp at h
        rw [← h]
        exact ⟨rfl, by ring, rfl⟩
      | succ m => simp at h
    | shortRead =>
      rw [ho] at h
      cases n with
      | zero =>
        simp at h
        rw [← h]
        exact ⟨rfl, by ring, rfl⟩
      | succ m => simp at h

/-- Claim C2: the checkpoint governing the first bucket is startup time
truncated to its hour plus one hour (also when startup is exactly on the
hour, since truncation then is the identity); each rotation advances it by
exactly one hour, so bucket `n` is governed by `truncHour t + (n+1)` hours;
and rotation fires at a check exactly when the current time has reached the
checkpoint (the bucket rotates without appending precisely when its first
check time is `≥` the checkpoint). -/
theorem rotation_checkpoint_schedule :
    (∀ (clock : Nat → Nat) (intr : Option Nat) (fuel : Nat) (s : List Nat) (n : Nat)
        (a : Archive), (run clock intr fuel s).archives.get? n = some a →
        a.deadline = truncHour (clock 0) + (n + 1) * hourUs) ∧
    (∀ t : Nat, t % hourUs = 0 → truncHour t = t) ∧
    (∀ (clock : Nat → Nat) (intr : Option Nat) (cp ci ri : Nat) (s : List Nat),
        ((runBucket clock intr cp ci ri s).outcome = .rotated ∧
          (runBucket clock intr cp ci ri s).rows = []) ↔ cp ≤ clock ci) := by
  refine ⟨?_, ?_, ?_⟩
  · intro clock intr fuel s n a h
    unfold run at h
    cases hs : syncStream s with
    | none =>
      rw [hs] at h
      simp at h
    | some s1 =>
      rw [hs] at h
      exact (runFrom_get clock intr fuel _ 1 0 s1 n a h).2.1
  · intro t ht
    unfold truncHour
    omega
  · intro clock intr cp ci ri s
    constructor
    · rintro ⟨ho, hr⟩
      by_contra hge
      rw [Nat.not_le] at hge
      by_cases hi : intr = some ri
      · rw [runBucket_intr clock intr cp ci ri s hge hi] at ho
        simp at ho
      · by_cases hl : 28 ≤ s.length
        · rw [runBucket_step clock intr cp ci ri s hge hi hl] at hr
          simp at hr
        · rw [runBucket_short clock intr cp ci ri s hge hi (by omega)] at ho
          simp at ho
    · intro h
      rw [runBucket_rotate clock intr cp ci ri s h]
      exact ⟨rfl, rfl⟩

/-! ### Concrete runs used by witnesses -/

/-- A 22-byte all-zero device header. -/
def hdrW : List Nat := List.replicate 22 0

/-- A minimal stream: the sync marker, the header, then the port closes. -/
def sW : List Nat := syncMarker ++ hdrW

/-- A clock frozen at the epoch. -/
def clock0 : Nat → Nat := fun _ => 0

theorem syncStream_sW : syncStream sW = some [] := by decide

/-- With no interrupt scheduled, the minimal run opens one archive, writes the
header row, immediately fails the first 28-byte read, and dies fatally. -/
theorem run_sW_eval :
    run clock0 none 1 sW = ⟨[⟨pathFor 0, columns, [], hourUs, true⟩], .shortRead⟩ := by
  unfold run
  rw [syncStream_sW]
  have h0 : truncHour (clock0 0) = 0 := by
    simp [truncHour, clock0]
  rw [h0]
  simp only [runFrom]
  rw [runBucket_short clock0 none (0 + hourUs) (1 + 1) 0 []
    (by norm_num [clock0, hourUs]) (by simp) (by simp)]
  simp [clock0]

/-- With the interrupt arriving during the first blocking read, the minimal
run closes its archive and exits gracefully. -/
theorem run_sW_intr_eval :
    run clock0 (some 0) 1 sW = ⟨[⟨pathFor 0, columns, [], hourUs, true⟩], .graceful⟩ := by
  unfold run
  rw [syncStream_sW]
  have h0 : truncHour (clock0 0) = 0 := by
    simp [truncHour, clock0]
  rw [h0]
  simp only [runFrom]
  rw [runBucket_intr clock0 (some 0) (0 + hourUs) (1 + 1) 0 []
    (by norm_num [clock0, hourUs]) rfl]
  simp [clock0]

/-- Witness for C2: the minimal run's only archive carries deadline
`truncHour 0 + 1` hour; an on-the-hour time is its own truncation; a bucket
whose first check time has already reached the checkpoint rotates empty. -/
theorem rotation_checkpoint_schedule_witness :
    ((run clock0 none 1 sW).archives.get? 0 =
        some ⟨pathFor 0, columns, [], hourUs, true⟩) ∧
    (⟨pathFor 0, columns, [], hourUs, true⟩ : Archive).deadline =
        truncHour (clock0 0) + (0 + 1) * hourUs ∧
    truncHour hourUs = hourUs ∧
    (((runBucket clock0 none 0 0 0 []).outcome = .rotated ∧
        (runBucket clock0 none 0 0 0 []).rows = []) ↔ 0 ≤ clock0 0) :=
  ⟨by rw [run_sW_eval]; rfl,
    rotation_checkpoint_schedule.1 clock0 none 1 sW 0 _ (by rw [run_sW_eval]; rfl),
    rotation_checkpoint_schedule.2.1 hourUs (by simp),
    rotation_checkpoint_schedule.2.2 clock0 none 0 0 0 []⟩

/-- Claim C4: every archive any run ever opens has as the first row of its
`metrics.csv` exactly the nine field names, in declared order, regardless of
the data subsequently appended. -/
theorem archive_header_fixed (clock : Nat → Nat) (intr : Option Nat) (fuel : Nat)
    (s : List Nat) (n : Nat) (a : Archive)
    (h : (run clock intr fuel s).archives.get? n = some a) :
    a.header = columns := by
  unfold run at h
  cases hs : syncStream s with
  | none =>
    rw [hs] at h
    simp at h
  | some s1 =>
    rw [hs] at h
    exact (runFrom_get clock intr fuel _ 1 0 s1 n a h).1

/-- Witness for C4 on the minimal concrete run. -/
theorem archive_header_fixed_witness :
    ((run clock0 none 1 sW).archives.get? 0 =
        some ⟨pathFor 0, columns, [], hourUs, true⟩) ∧
    (⟨pathFor 0, columns, [], hourUs, true⟩ : Archive).header = columns :=
  ⟨by rw [run_sW_eval]; rfl,
    archive_header_fixed clock0 none 1 sW 0 _ (by rw [run_sW_eval]; rfl)⟩

/-! ### Interrupt handling -/

/-- With no interrupt scheduled, the inner loop can only rotate or die on a
short read — it never reports an interrupt.  (Bounded induction on the stream
length; each iteration consumes 28 bytes.) -/
theorem runBucket_none_not_intr (clock : Nat → Nat) (cp : Nat) :
    ∀ (n ci ri : Nat) (s : List Nat), s.length ≤ n →
      (runBucket clock none cp ci ri s).outcome ≠ .interrupted := by
  intro n
  induction n with
  | zero =>
    intro ci ri s hs
    have hnil : s = [] := List.eq_nil_of_length_eq_zero (Nat.le_zero.mp hs)
    subst hnil
    by_cases h : clock ci < cp
    · rw [runBucket_short clock none cp ci ri [] h (by simp) (by simp)]
      simp
    · rw [runBucket_rotate clock none cp ci ri [] (Nat.not_lt.mp h)]
      simp
  | succ n ih =>
    intro ci ri s hs
    by_cases h : clock ci < cp
    · by_cases hl : 28 ≤ s.length
      · rw [runBucket_step clock none cp ci ri s h (by simp) hl]
        exact ih (ci + 2) (ri + 1) (s.drop 28) (by simp; omega)
      · rw [runBucket_short clock none cp ci ri s h (by simp) (by omega)]
        simp
    · rw [runBucket_rotate clock none cp ci ri s (Nat.not_lt.mp h)]
      simp

/-- With no interrupt scheduled, the outer loop never reaches the graceful
(`except KeyboardInterrupt`) exit. -/
theorem runFrom_none_not_graceful (clock : Nat → Nat) :
    ∀ (fuel cp ci ri : Nat) (s : List Nat),
      (runFrom clock none fuel cp ci ri s).exit ≠ .graceful := by
  intro fuel
  induction fuel with
  | zero =>
    intro cp ci ri s
    simp [runFrom]
  | succ fuel ih =>
    intro cp ci ri s
    simp only [runFrom]
    cases ho : (runBucket clock none (cp + hourUs) (ci + 1) ri s).outcome with
    | rotated => exact ih _ _ _ _
    | interrupted =>
      exact absurd ho (runBucket_none_not_intr clock (cp + hourUs) s.length (ci + 1) ri s le_rfl)
    | shortRead => simp

/-- Claim C6: a run that ends gracefully has finalized (closed) every archive
it opened, including the currently open one, before exiting; and the
interrupt is the only condition that reaches this graceful-shutdown path — a
run with no interrupt never exits gracefully. -/
theorem interrupt_only_graceful :
    (∀ (clock : Nat → Nat) (fuel : Nat) (s : List Nat),
        (run clock none fuel s).exit ≠ .graceful) ∧
    (∀ (clock : Nat → Nat) (intr : Option Nat) (fuel : Nat) (s : List Nat) (n : Nat)
        (a : Archive),
        (run clock intr fuel s).exit = .graceful →
        (run clock intr fuel s).archives.get? n = some a →
        a.finalized = true) := by
  constructor
  · intro clock fuel s
    unfold run
    cases hs : syncStream s with
    | none => simp
    | some s1 => exact runFrom_none_not_graceful clock fuel _ 1 0 s1
  · intro clock intr fuel s n a _ h
    unfold run at h
    cases hs : syncStream s with
    | none =>
      rw [hs] at h
      simp at h
    | some s1 =>
      rw [hs] at h
      exact (runFrom_get clock intr fuel _ 1 0 s1 n a h).2.2

/-- Witness for C6: the interrupted minimal run exits gracefully with its one
archive finalized; the same run without the interrupt does not exit
gracefully. -/
theorem interrupt_only_graceful_witness :
    ((run clock0 (some 0) 1 sW).exit = .graceful ∧
      (run clock0 (some 0) 1 sW).archives.get? 0 =
        some ⟨pathFor 0, columns, [], hourUs, true⟩) ∧
    (⟨pathFor 0, columns, [], hourUs, true⟩ : Archive).finalized = true ∧
    (run clock0 none 1 sW).exit ≠ .graceful :=
  ⟨⟨by rw [run_sW_intr_eval], by rw [run_sW_intr_eval]; rfl⟩,
    interrupt_only_graceful.2 clock0 (some 0) 1 sW 0 _
      (by rw [run_sW_intr_eval]) (by rw [run_sW_intr_eval]; rfl),
    interrupt_only_graceful.1 clock0 1 sW⟩

/-! ### Row counting -/

/-- If the first `N` rotation checks fall before the checkpoint, the `N+1`-st
check falls at or after it, and the stream holds at least `N` records, the
bucket appends exactly the `N` decoded records, in arrival order, then
rotates, having consumed exactly `28 * N` bytes. -/
theorem runBucket_count (clock : Nat → Nat) (cp : Nat) :
    ∀ (N ci ri : Nat) (s : List Nat),
      (∀ k, k < N → clock (ci + 2 * k) < cp) →
      cp ≤ clock (ci + 2 * N) →
      28 * N ≤ s.length →
      runBucket clock none cp ci ri s =
        ⟨(List.range N).map (fun k =>
            decodeRecord (clock (ci + 1 + 2 * k)) ((s.drop (28 * k)).take 28)),
          .rotated, ci + 2 * N + 1, ri + N, s.drop (28 * N)⟩ := by
  intro N
  induction N with
  | zero =>
    intro ci ri s h1 h2 h3
    have := runBucket_rotate clock none cp ci ri s (by simpa using h2)
    simpa using this
  | succ N ih =>
    intro ci ri s h1 h2 h3
    have hck : clock ci < cp := by simpa using h1 0 (Nat.succ_pos N)
    have hl : 28 ≤ s.length := by omega
    rw [runBucket_step clock none cp ci ri s hck (by simp) hl]
    have ih' := ih (ci + 2) (ri + 1) (s.drop 28)
      (fun k hk => by
        have := h1 (k + 1) (by omega)
        have e : ci + 2 * (k + 1) = ci + 2 + 2 * k := by omega
        rwa [e] at this)
      (by
        have e : ci + 2 * (N + 1) = ci + 2 + 2 * N := by omega
        rwa [e] at h2)
      (by simp; omega)
    rw [ih']
    have htail : List.map (fun k => decodeRecord (clock (ci + 2 + 1 + 2 * k))
          (List.take 28 (List.drop (28 * k) (List.drop 28 s)))) (List.range N) =
        List.map ((fun k => decodeRecord (clock (ci + 1 + 2 * k))
          (List.take 28 (List.drop (28 * k) s))) ∘ Nat.succ) (List.range N) := by
      refine List.map_congr_left fun k hk => ?_
      simp only [Function.comp_apply, Nat.succ_eq_add_one, List.drop_drop]
      have e1 : ci + 2 + 1 + 2 * k = ci + 1 + 2 * (k + 1) := by omega
      have e2 : 28 + 28 * k = 28 * (k + 1) := by omega
      rw [e1, e2]
    rw [List.range_succ_eq_map, List.map_cons, List.map_map]
    simp only [BucketResult.mk.injEq, Function.comp]
    refine ⟨?_, trivial, by omega, by omega,
      by rw [List.drop_drop, show 28 + 28 * N = 28 * (N + 1) from by omega]⟩
    rw [htail]
    simp

/-- Claim C5: if exactly `N` records arrive and are decoded before the first
rotation boundary fires, the first archive's `metrics.csv` holds exactly `N`
data rows after its single header row, one row per reading, in arrival
order. -/
theorem rows_before_first_rotation (clock : Nat → Nat) (fuel cp ci ri N : Nat)
    (body : List Nat)
    (h1 : ∀ k, k < N → clock (ci + 1 + 2 * k) < cp + hourUs)
    (h2 : cp + hourUs ≤ clock (ci + 1 + 2 * N))
    (h3 : 28 * N ≤ body.length) :
    (runFrom clock none (fuel + 1) cp ci ri body).archives.get? 0 =
      some ⟨pathFor (clock ci), columns,
        (List.range N).map (fun k =>
          decodeRecord (clock (ci + 2 + 2 * k)) ((body.drop (28 * k)).take 28)),
        cp + hourUs, true⟩ ∧
    ((List.range N).map (fun k =>
        decodeRecord (clock (ci + 2 + 2 * k)) ((body.drop (28 * k)).take 28))).length = N := by
  have hb := runBucket_count clock (cp + hourUs) N (ci + 1) ri body h1 h2 h3
  constructor
  · simp only [runFrom]
    rw [hb]
    simp only [List.get?_cons_zero, Option.some.injEq, Archive.mk.injEq]
  · simp

/-- Clock used by the C5 witness: frozen until the fourth call, then one hour
later. -/
def witClock : Nat → Nat := fun n => if n ≤ 3 then 0 else hourUs

/-- Witness for C5 with `N = 1`: one 28-byte record arrives before the first
boundary, and the first archive holds exactly one data row. -/
theorem rows_before_first_rotation_witness :
    ((∀ k, k < 1 → witClock (1 + 1 + 2 * k) < 0 + hourUs) ∧
      0 + hourUs ≤ witClock (1 + 1 + 2 * 1) ∧
      28 * 1 ≤ (List.range 28).length) ∧
    ((runFrom witClock none (0 + 1) 0 1 0 (List.range 28)).archives.get? 0 =
      some ⟨pathFor (witClock 1), columns,
        (List.range 1).map (fun k =>
          decodeRecord (witClock (1 + 2 + 2 * k)) (((List.range 28).drop (28 * k)).take 28)),
        0 + hourUs, true⟩ ∧
      ((List.range 1).map (fun k =>
        decodeRecord (witClock (1 + 2 + 2 * k)) (((List.range 28).drop (28 * k)).take 28))).length = 1) :=
  ⟨⟨fun k hk => by
      have hk0 : k = 0 := by omega
      subst hk0
      norm_num [witClock, hourUs],
    by norm_num [witClock, hourUs],
    by simp⟩,
    rows_before_first_rotation witClock 0 0 1 0 1 (List.range 28)
      (fun k hk => by
        have hk0 : k = 0 := by omega
        subst hk0
        norm_num [witClock, hourUs])
      (by norm_num [witClock, hourUs])
      (by simp)⟩

/-! ### Decode failures -/

/-- Claim C8: for every full 28-byte record the decode-and-append step always
appends exactly the decoded row — there is no skip path, so the
`except json.JSONDecodeError` branch that would log "Invalid data" and
continue is never taken (the binary decode of a full buffer is total);
whereas a short read (fewer than 28 bytes left) ends the bucket as a fatal
`shortRead`, which the outer loop propagates as the process-terminating exit,
not the graceful one. -/
theorem invalid_data_branch_unreachable :
    (∀ (clock : Nat → Nat) (intr : Option Nat) (cp ci ri : Nat) (s : List Nat),
        clock ci < cp → intr ≠ some ri → 28 ≤ s.length →
        runBucket clock intr cp ci ri s =
          { rows := decodeRecord (clock (ci + 1)) (s.take 28) ::
              (runBucket clock intr cp (ci + 2) (ri + 1) (s.drop 28)).rows,
            outcome := (runBucket clock intr cp (ci + 2) (ri + 1) (s.drop 28)).outcome,
            clockIdx := (runBucket clock intr cp (ci + 2) (ri + 1) (s.drop 28)).clockIdx,
            readIdx := (runBucket clock intr cp (ci + 2) (ri + 1) (s.drop 28)).readIdx,
            stream := (runBucket clock intr cp (ci + 2) (ri + 1) (s.drop 28)).stream }) ∧
    (∀ (clock : Nat → Nat) (intr : Option Nat) (cp ci ri : Nat) (s : List Nat),
        clock ci < cp → intr ≠ some ri → s.length < 28 →
        runBucket clock intr cp ci ri s = ⟨[], .shortRead, ci + 1, ri + 1, s⟩) ∧
    (∀ (clock : Nat → Nat) (intr : Option Nat) (fuel cp ci ri : Nat) (s : List Nat),
        (runBucket clock intr (cp + hourUs) (ci + 1) ri s).outcome = .shortRead →
        (runFrom clock intr (fuel + 1) cp ci ri s).exit = .shortRead ∧
          (runFrom clock intr (fuel + 1) cp ci ri s).exit ≠ .graceful) := by
  refine ⟨runBucket_step, runBucket_short, ?_⟩
  intro clock intr fuel cp ci ri s ho
  simp only [runFrom, ho]
  simp

/-- Witness for C8: on a 28-byte stream the step appends one row; on the empty
stream it dies short; and the minimal run fatally propagates the short read. -/
theorem invalid_data_branch_unreachable_witness :
    (clock0 0 < hourUs ∧ (none : Option Nat) ≠ some 0 ∧ 28 ≤ (List.range 28).length ∧
      runBucket clock0 none hourUs 0 0 (List.range 28) =
        { rows := decodeRecord (clock0 1) ((List.range 28).take 28) ::
            (runBucket clock0 none hourUs 2 1 ((List.range 28).drop 28)).rows,
          outcome := (runBucket clock0 none hourUs 2 1 ((List.range 28).drop 28)).outcome,
          clockIdx := (runBucket clock0 none hourUs 2 1 ((List.range 28).drop 28)).clockIdx,
          readIdx := (runBucket clock0 none hourUs 2 1 ((List.range 28).drop 28)).readIdx,
          stream := (runBucket clock0 none hourUs 2 1 ((List.range 28).drop 28)).stream }) ∧
    runBucket clock0 none hourUs 0 0 [] = ⟨[], .shortRead, 1, 1, []⟩ ∧
    (runFrom clock0 none (0 + 1) 0 0 0 []).exit = .shortRead :=
  ⟨⟨by norm_num [clock0, hourUs], by simp, by simp,
      invalid_data_branch_unreachable.1 clock0 none hourUs 0 0 (List.range 28)
        (by norm_num [clock0, hourUs]) (by simp) (by simp)⟩,
    invalid_data_branch_unreachable.2.1 clock0 none hourUs 0 0 []
      (by norm_num [clock0, hourUs]) (by simp) (by simp),
    (invalid_data_branch_unreachable.2.2 clock0 none 0 0 0 0 []
      (by
        rw [runBucket_short clock0 none (0 + hourUs) (0 + 1) 0 []
          (by norm_num [clock0, hourUs]) (by simp) (by simp)])).1⟩

/-! ### Stalled-source buckets -/

/-- Claim C9: when a bucket opens with its just-advanced checkpoint already at
or below the time of its first check (the source stalled for more than an
hour), the inner loop runs zero iterations: the archive is finalized with the
header row only and no data rows, not a single byte is read from the source
for it, and rotation immediately fires again into the next bucket with the
checkpoint advanced by exactly one more hour. -/
theorem stalled_bucket_header_only (clock : Nat → Nat) (intr : Option Nat)
    (fuel cp ci ri : Nat) (s : List Nat)
    (h : cp + hourUs ≤ clock (ci + 1)) :
    runFrom clock intr (fuel + 1) cp ci ri s =
      ⟨⟨pathFor (clock ci), columns, [], cp + hourUs, true⟩ ::
          (runFrom clock intr fuel (cp + hourUs) (ci + 2) ri s).archives,
        (runFrom clock intr fuel (cp + hourUs) (ci + 2) ri s).exit⟩ := by
  simp only [runFrom]
  rw [runBucket_rotate clock intr (cp + hourUs) (ci + 1) ri s h]

/-- Clock used by the C9 witness: stuck one hour past the epoch. -/
def clockH : Nat → Nat := fun _ => hourUs

/-- Witness for C9: with the clock an hour ahead of the checkpoint, the bucket
contributes a header-only archive and passes the untouched stream on. -/
theorem stalled_bucket_header_only_witness :
    (0 + hourUs ≤ clockH (0 + 1)) ∧
    runFrom clockH none (0 + 1) 0 0 0 (List.range 28) =
      ⟨⟨pathFor (clockH 0), columns, [], 0 + hourUs, true⟩ ::
          (runFrom clockH none 0 (0 + hourUs) (0 + 2) 0 (List.range 28)).archives,
        (runFrom clockH none 0 (0 + hourUs) (0 + 2) 0 (List.range 28)).exit⟩ :=
  ⟨by simp [clockH],
    stalled_bucket_header_only clockH none 0 0 0 0 (List.range 28) (by simp [clockH])⟩

/-! ### Archive paths and same-second overwrite -/

/-- Claim C10: archive paths have one-second resolution — any two open times
in the same UTC second yield the same path — and `zipfile.ZipFile(path, "w")`
truncates and replaces whatever is at that path, so of two archives opened in
the same second only the second survives on disk. -/
theorem same_second_path_overwrite (t t2 : Nat) (h : t / 1000000 = t2 / 1000000) :
    pathFor t = pathFor t2 ∧
    (∀ (fs : String → Option Archive) (a b : Archive),
      writeFile (writeFile fs (pathFor t) a) (pathFor t2) b (pathFor t) = some b) := by
  have hdays : t / 86400000000 = t2 / 86400000000 := by
    have e1 : t / 86400000000 = t / 1000000 / 86400 := by
      rw [Nat.div_div_eq_div_mul]
    have e2 : t2 / 86400000000 = t2 / 1000000 / 86400 := by
      rw [Nat.div_div_eq_div_mul]
    rw [e1, e2, h]
  have hsec : t % 86400000000 / 1000000 = t2 % 86400000000 / 1000000 := by
    have e1 := Nat.mod_mul_right_div_self t 1000000 86400
    have e2 := Nat.mod_mul_right_div_self t2 1000000 86400
    norm_num at e1 e2
    rw [e1, e2, h]
  have hp : pathFor t = pathFor t2 := by
    unfold pathFor
    rw [hdays, hsec]
  exact ⟨hp, fun fs a b => by simp [writeFile, hp]⟩

/-- Witness for C10: times `0` and `999999` µs share the second `0`; writing a
second archive at the same path destroys the first. -/
theorem same_second_path_overwrite_witness :
    ((0 : Nat) / 1000000 = 999999 / 1000000) ∧
    pathFor 0 = pathFor 999999 ∧
    writeFile (writeFile (fun _ => none) (pathFor 0)
        ⟨"first", [], [], 0, true⟩) (pathFor 999999)
        ⟨"second", [], [], 0, true⟩ (pathFor 0) =
      some ⟨"second", [], [], 0, true⟩ :=
  ⟨by norm_num,
    (same_second_path_overwrite 0 999999 (by norm_num)).1,
    (same_second_path_overwrite 0 999999 (by norm_num)).2 (fun _ => none)
      ⟨"first", [], [], 0, true⟩ ⟨"second", [], [], 0, true⟩⟩

end ReadHumidity
